import Mathlib

/-
Verification of the perceptual target-relocation and replay engine of
src/simmy.py against its natural-language specification.

The Python functions are shallowly embedded as pure Lean functions:

  * `_translate_coord`  (simmy.py lines 608-618)  -> `translate_coord`
  * `_detect_ui_changes` (simmy.py lines 211-212) -> `detect_ui_changes`
  * `_save_multi_snips` (simmy.py lines 226-256)  -> `save_multi_snips`
  * `_intelligent_click` (simmy.py lines 620-651) -> `intelligent_click`
  * `_cv2_template_match` (simmy.py lines 503-520) -> `cv2_template_match`
  * `_try_find_click_target` (simmy.py lines 572-606) -> `try_find_click_target`
  * `replay_script` event loop (simmy.py lines 749-799) -> `replay_script`

Machine reals of the Python code are modelled by exact rationals; the
platform calls (pyautogui, cv2, pytesseract, the file system) are modelled
by explicit oracle parameters so that the decision logic of the source is
embedded exactly while its effectful leaves stay abstract.
-/

/-! ## Geometry Translator (`_translate_coord`, simmy.py 608-618) -/

/-- Python `round` on an exact rational: round half to even, as `round`
behaves on the values `int(round(v))` is applied to in `_translate_coord`. -/
def pyRound (q : ℚ) : ℤ :=
  let f := ⌊q⌋
  let r := q - (f : ℚ)
  if r < 1 / 2 then f
  else if 1 / 2 < r then f + 1
  else if f % 2 = 0 then f else f + 1

/-- Embedding of `_translate_coord`: subtract the recorded window origin,
scale by current/recorded extent with the recorded extent clamped below by 1
(`max(1, r_w)` in the source), add the current origin, round to an integer
pixel. Rectangles are `(x, y, w, h)` tuples exactly as in the source. -/
def translate_coord (recorded_xy : ℤ × ℤ) (rec_win cur_win : ℤ × ℤ × ℤ × ℤ) :
    ℤ × ℤ :=
  let rx := recorded_xy.1
  let ry := recorded_xy.2
  let r_x := rec_win.1
  let r_y := rec_win.2.1
  let r_w := rec_win.2.2.1
  let r_h := rec_win.2.2.2
  let c_x := cur_win.1
  let c_y := cur_win.2.1
  let c_w := cur_win.2.2.1
  let c_h := cur_win.2.2.2
  let local_x := rx - r_x
  let local_y := ry - r_y
  let sx : ℚ := (c_w : ℚ) / ((max 1 r_w : ℤ) : ℚ)
  let sy : ℚ := (c_h : ℚ) / ((max 1 r_h : ℤ) : ℚ)
  (pyRound ((c_x : ℚ) + (local_x : ℚ) * sx),
   pyRound ((c_y : ℚ) + (local_y : ℚ) * sy))

/-! ## UI State Sampler (`_detect_ui_changes`, simmy.py 211-212) -/

/-- Embedding of `_detect_ui_changes`: the Python expression
`bool(before_hash and after_hash and before_hash != after_hash)` where the
hashes are `Optional[str]`. Python truthiness makes both `None` and the
empty string falsy. -/
def detect_ui_changes (before_hash after_hash : Option String) : Bool :=
  match before_hash, after_hash with
  | some b, some a => !(b == ("" : String)) && !(a == ("" : String)) && (b != a)
  | _, _ => false

/-- Python truthiness of an optional hash string: `None` and the empty
string are falsy, every other string is truthy. -/
def truthyHash : Option String → Bool
  | none => false
  | some s => !(s == ("" : String))

/-! ## Region Extractor (`_save_multi_snips`, simmy.py 226-256) -/

/-- One saved crop: its clipped rectangle in full-frame coordinates together
with the origin entry the source stores alongside it
(`origins[...] = {"left": left, "top": top}`). -/
structure Snip where
  name : String
  left : ℤ
  top : ℤ
  right : ℤ
  bottom : ℤ
  originLeft : ℤ
  originTop : ℤ
deriving DecidableEq, Repr

/-- The fixed size family of the source: SNIP_MICRO, SNIP_SMALL, SNIP_MEDIUM,
SNIP_LARGE, SNIP_CONTEXT, iterated in the insertion order of the `sizes`
dict in `_save_multi_snips`. -/
def snipSizes : List (String × ℤ × ℤ) :=
  [("micro", (80, 60)), ("small", (160, 120)), ("medium", (320, 240)),
   ("large", (480, 360)), ("context", (800, 600))]

/-- One iteration of the loop body of `_save_multi_snips`: clip the
`w` by `h` rectangle centred on `(x, y)` to the `sw` by `sh` frame and skip
it (`continue`) when the clipped rectangle is empty. -/
def clipSnip (sw sh x y : ℤ) (nm : String) (w h : ℤ) : Option Snip :=
  let left := max 0 (x - w / 2)
  let top := max 0 (y - h / 2)
  let right := min sw (left + w)
  let bottom := min sh (top + h)
  if right ≤ left ∨ bottom ≤ top then none
  else some ⟨nm, left, top, right, bottom, left, top⟩

/-- Embedding of `_save_multi_snips` for a frame of size `sw` by `sh`: the
crops actually produced, in size order, empty clips omitted. -/
def save_multi_snips (sw sh x y : ℤ) : List Snip :=
  (snipSizes.map (fun s => clipSnip sw sh x y s.1 s.2.1 s.2.2)).reduceOption

/-! ## Action Executor (`_intelligent_click`, simmy.py 620-651) -/

/-- The 3 by 3 offset grid `[(dx, dy) for dx in (-d, 0, d) for dy in
(-d, 0, d)]` in the iteration order of the source. It contains the centre
offset `(0, 0)`. -/
def gridSteps (d : ℤ) : List (ℤ × ℤ) :=
  [(-d, -d), (-d, 0), (-d, d), (0, -d), (0, 0), (0, d), (d, -d), (d, 0), (d, d)]

/-- Every point `_intelligent_click` may try, in order: the exact point,
the 9 points of the plus-minus 8 pixel grid, then the 3 by 3 grids at radii
12, 18 and `max_radius` (24 by default in the source). -/
def clickPoints (x y max_radius : ℤ) : List (ℤ × ℤ) :=
  (x, y) ::
    (gridSteps 8 ++ gridSteps 12 ++ gridSteps 18 ++ gridSteps max_radius).map
      (fun s => (x + s.1, y + s.2))

/-- Try the points in order; `failAt p = true` models the pyautogui call at
`p` raising a platform exception (caught by the source, which moves on).
Returns the boolean outcome of `_intelligent_click` and the list of points
actually attempted, in order. -/
def tryClicks (failAt : ℤ × ℤ → Bool) : List (ℤ × ℤ) → Bool × List (ℤ × ℤ)
  | [] => (false, [])
  | p :: ps =>
    if failAt p then
      let r := tryClicks failAt ps
      (r.1, p :: r.2)
    else (true, [p])

/-- Embedding of `_intelligent_click`: the exact point first, then the
plus-minus 8 grid, then expanding radii, stopping at the first attempt that
does not raise; `false` when every attempt raised. Total by construction:
every platform exception is converted into trying the next point. -/
def intelligent_click (failAt : ℤ × ℤ → Bool) (x y max_radius : ℤ) :
    Bool × List (ℤ × ℤ) :=
  tryClicks failAt (clickPoints x y max_radius)

/-- The attempt schedule of `_intelligent_click` written out point by point:
the exact point, the nine points of the plus-minus 8 grid (centre included),
then the nine-point grids at radii 12, 18 and `r`. -/
def specClickPoints (x y r : ℤ) : List (ℤ × ℤ) :=
  [(x, y),
   (x - 8, y - 8), (x - 8, y), (x - 8, y + 8),
   (x, y - 8), (x, y), (x, y + 8),
   (x + 8, y - 8), (x + 8, y), (x + 8, y + 8),
   (x - 12, y - 12), (x - 12, y), (x - 12, y + 12),
   (x, y - 12), (x, y), (x, y + 12),
   (x + 12, y - 12), (x + 12, y), (x + 12, y + 12),
   (x - 18, y - 18), (x - 18, y), (x - 18, y + 18),
   (x, y - 18), (x, y), (x, y + 18),
   (x + 18, y - 18), (x + 18, y), (x + 18, y + 18),
   (x - r, y - r), (x - r, y), (x - r, y + r),
   (x, y - r), (x, y), (x, y + r),
   (x + r, y - r), (x + r, y), (x + r, y + r)]

/-! ## Matching Cascade (`_try_find_click_target`, simmy.py 572-606) -/

/-- The five stored region attributes of an event
(`img_small` .. `img_context`). -/
inductive Attr
  | small
  | medium
  | large
  | micro
  | context
deriving DecidableEq, Repr

/-- The attribute order of the source:
`img_attrs = ["img_small", "img_medium", "img_large", "img_micro", "img_context"]`. -/
def imgAttrs : List Attr := [.small, .medium, .large, .micro, .context]

def TEMPLATE_CONF_HIGH : ℚ := 85 / 100

def TEMPLATE_CONF_DEFAULT : ℚ := 78 / 100

def TEMPLATE_CONF_RELAXED : ℚ := 62 / 100

def TEMPLATE_CONF_VERY_RELAXED : ℚ := 45 / 100

/-- The descending threshold list
`confs = [TEMPLATE_CONF_HIGH, TEMPLATE_CONF_DEFAULT, TEMPLATE_CONF_RELAXED,
TEMPLATE_CONF_VERY_RELAXED]` of the source. -/
def confs : List ℚ :=
  [TEMPLATE_CONF_HIGH, TEMPLATE_CONF_DEFAULT, TEMPLATE_CONF_RELAXED,
   TEMPLATE_CONF_VERY_RELAXED]

/-- The environment `_try_find_click_target` runs in. The effectful leaves
of the source are oracles:

  * `screenshot`: `_safe_screenshot()` returned a frame;
  * `present a`: `event.get(attr)` is a non-empty path for attribute `a`;
  * `resolvable a`: that path (or its fallback under `script_dir/images`)
    exists on disk;
  * `tmScore a`: the `(max_loc centre, max_val)` pair
    `cv2.minMaxLoc(cv2.matchTemplate(...))` yields for attribute `a`, `none`
    when cv2 is unavailable, the file is unreadable (`cv2.imread` gives
    `None`) or the call raises. `cv2.matchTemplate` is deterministic, so the
    pair does not depend on the confidence argument;
  * `orbHit a`: the point and confidence `_orb_match` yields, `none` when it
    yields nothing;
  * `ocrText`: `event.get("ocr_text")`;
  * `ocrHit s`: the point and confidence `_ocr_match s` yields. -/
structure MatchEnv where
  screenshot : Bool
  present : Attr → Bool
  resolvable : Attr → Bool
  tmScore : Attr → Option ((ℤ × ℤ) × ℚ)
  orbHit : Attr → Option ((ℤ × ℤ) × ℚ)
  ocrText : Option String
  ocrHit : String → Option ((ℤ × ℤ) × ℚ)

/-- Embedding of `_cv2_template_match` over the threshold-independent
`(location, peak score)` pair: accept iff `max_val >= confidence`. -/
def cv2_template_match (score : Option ((ℤ × ℤ) × ℚ)) (confidence : ℚ) :
    Option ((ℤ × ℤ) × ℚ) :=
  match score with
  | none => none
  | some (p, v) => if confidence ≤ v then some (p, v) else none

/-- One attempt of the cascade, for the trace of what it tried. -/
inductive Attempt
  | template (a : Attr) (conf : ℚ)
  | feature (a : Attr)
  | textMatch
deriving DecidableEq, Repr

/-- The inner loop `for c in confs: hit = _cv2_template_match(...)` of
`_try_find_click_target` for one attribute, returning the first accepted
point and the trace of template attempts made. -/
def tmLoop (score : Option ((ℤ × ℤ) × ℚ)) (a : Attr) :
    List ℚ → Option (ℤ × ℤ) × List Attempt
  | [] => (none, [])
  | c :: cs =>
    match cv2_template_match score c with
    | some (p, _) => (some p, [Attempt.template a c])
    | none =>
      let rest := tmLoop score a cs
      (rest.1, Attempt.template a c :: rest.2)

/-- One iteration of the `for attr in img_attrs` loop of
`_try_find_click_target`: skip absent or unresolvable attributes, otherwise
try the four template thresholds and then `_orb_match` on the same stored
region. -/
def tryAttr (env : MatchEnv) (a : Attr) : Option (ℤ × ℤ) × List Attempt :=
  if env.present a && env.resolvable a then
    let tm := tmLoop (env.tmScore a) a confs
    match tm.1 with
    | some p => (some p, tm.2)
    | none =>
      match env.orbHit a with
      | some (p, _) => (some p, tm.2 ++ [Attempt.feature a])
      | none => (none, tm.2 ++ [Attempt.feature a])
  else (none, [])

/-- The `for attr in img_attrs` loop, short-circuiting at the first hit. -/
def tryAttrs (env : MatchEnv) : List Attr → Option (ℤ × ℤ) × List Attempt
  | [] => (none, [])
  | a :: rest =>
    let r := tryAttr env a
    match r.1 with
    | some p => (some p, r.2)
    | none =>
      let r2 := tryAttrs env rest
      (r2.1, r.2 ++ r2.2)

/-- Embedding of `_try_find_click_target`: no frame means no result; then
the image attributes in order, then `_ocr_match` on the stored text when it
is non-empty (`tt = event.get("ocr_text") or ""; if tt:`). Returns the
located point (or `none`) and the trace of attempts made. -/
def try_find_click_target (env : MatchEnv) : Option (ℤ × ℤ) × List Attempt :=
  if env.screenshot then
    let r := tryAttrs env imgAttrs
    match r.1 with
    | some p => (some p, r.2)
    | none =>
      match env.ocrText with
      | none => (none, r.2)
      | some s =>
        if s = ("" : String) then (none, r.2)
        else
          match env.ocrHit s with
          | some (p, _) => (some p, r.2 ++ [Attempt.textMatch])
          | none => (none, r.2 ++ [Attempt.textMatch])
  else (none, [])

/-- The full attempt schedule of the cascade for an environment: for each
present and resolvable attribute, in source order, the four template
thresholds then the feature attempt, and the text attempt at the very end
when stored text is usable. The actual trace is always a prefix of it. -/
def attrCanon (a : Attr) : List Attempt :=
  confs.map (Attempt.template a) ++ [Attempt.feature a]

def canonicalTrace (env : MatchEnv) : List Attempt :=
  if env.screenshot then
    ((imgAttrs.filter (fun a => env.present a && env.resolvable a)).flatMap
      attrCanon) ++
    (match env.ocrText with
     | some s => if s = ("" : String) then [] else [Attempt.textMatch]
     | none => [])
  else []

/-! ## Replay Orchestrator (`replay_script` event loop, simmy.py 749-799) -/

/-- The action kinds the replay loop distinguishes. -/
inductive RKind
  | keyPress
  | keyRelease
  | mouseScroll
  | mouseClick
  | mouseMove
deriving DecidableEq, Repr

/-- One stored event as the replay loop sees it: its kind and whether
executing it succeeds (`_replay_key_event` result for key events,
`_intelligent_click` result for clicks, no exception for scrolls). -/
structure REvent where
  kind : RKind
  ok : Bool
deriving DecidableEq, Repr

/-- The counter increments of one executed event: key events and clicks
count success or failure from their outcome, scrolls count a success unless
the platform call raises (then the outer handler counts a failure), moves
are ignored and count nothing. -/
def eventCounts (e : REvent) : ℕ × ℕ :=
  match e.kind with
  | .mouseMove => (0, 0)
  | _ => if e.ok then (1, 0) else (0, 1)

/-- Success and failure totals of a list of executed events. -/
def totals : List REvent → ℕ × ℕ
  | [] => (0, 0)
  | e :: rest =>
    let t := totals rest
    ((eventCounts e).1 + t.1, (eventCounts e).2 + t.2)

/-- The `for i, ev in enumerate(events)` loop from event index `i` on:
`abortAt i` is the value of `abort_event.is_set()` at the cooperative check
that starts iteration `i`; on abort the loop breaks at once. Returns the
success counter, the failure counter and the number of events executed. -/
def replayFrom (abortAt : ℕ → Bool) : ℕ → List REvent → ℕ × ℕ × ℕ
  | _, [] => (0, 0, 0)
  | i, e :: rest =>
    if abortAt i then (0, 0, 0)
    else
      let r := replayFrom abortAt (i + 1) rest
      ((eventCounts e).1 + r.1, (eventCounts e).2 + r.2.1, r.2.2 + 1)

/-- Embedding of the event loop of `replay_script`: run from index 0. -/
def replay_script (abortAt : ℕ → Bool) (events : List REvent) : ℕ × ℕ × ℕ :=
  replayFrom abortAt 0 events

def failW5 : ℤ × ℤ → Bool := fun p => !(p == ((112 : ℤ), (112 : ℤ)))

def abortW9 : ℕ → Bool := fun i => decide (2 ≤ i)

def eventsW9 : List REvent :=
  [⟨.mouseClick, true⟩, ⟨.keyPress, false⟩, ⟨.mouseClick, true⟩,
   ⟨.mouseScroll, true⟩]

/-- The contribution of one attribute to the canonical attempt schedule:
nothing when the attribute is absent or unresolvable, otherwise the four
template attempts followed by the feature attempt. -/
def attrGate (env : MatchEnv) (a : Attr) : List Attempt :=
  if env.present a && env.resolvable a then attrCanon a else []

def isTemplateA : Attempt → Bool
  | .template _ _ => true
  | _ => false

def isFeatureA : Attempt → Bool
  | .feature _ => true
  | _ => false

/-- An event that stores small and medium regions whose files resolve but
match nothing: the concrete input of the C1 counterexample. -/
def cexEnvC1 : MatchEnv :=
  ⟨true, fun a => a == Attr.small || a == Attr.medium, fun _ => true,
   fun _ => none, fun _ => none, none, fun _ => none⟩

/-- The attribute an attempt works on, when it has one. -/
def attemptAttr : Attempt → Option Attr
  | .template a _ => some a
  | .feature a => some a
  | .textMatch => none

/-- An event that stores small and medium regions where the small file is
missing, the medium file resolves, no matcher yields anything, and stored
text is usable: the concrete input of the C8 witness. -/
def wEnvC8 : MatchEnv :=
  ⟨true, fun a => a == Attr.small || a == Attr.medium,
   fun a => a == Attr.medium, fun _ => none, fun _ => none, some ("OK"),
   fun _ => none⟩

theorem pyRound_intCast (n : ℤ) : pyRound (n : ℚ) = n := by
  simp [pyRound]

theorem pyRound_eq_int (q : ℚ) (n : ℤ) (h : q = (n : ℚ)) : pyRound q = n := by
  rw [h, pyRound_intCast]

theorem clickPoints_eq_spec (x y r : ℤ) :
    clickPoints x y r = specClickPoints x y r := by
  simp [clickPoints, gridSteps, specClickPoints, sub_eq_add_neg]

/-! ## Claim C2: Geometry Translator degenerate rectangles -/

/-- C2, counterexample. The claim says that for a degenerate recorded
rectangle the scale factor is 1.0, i.e. the offset passes through unscaled:
translating point (5, 0) from the zero-width rectangle (0, 0, 0, 5) into
(0, 0, 800, 5) would then give x = 0 + 5 = 5. The code instead clamps the
recorded width to 1 in the denominator, scaling the offset by 800/1, so the
result is (4000, 0). -/
theorem C2_counterexample :
    translate_coord (5, 0) (0, 0, 0, 5) (0, 0, 800, 5) = (4000, 0) ∧
    (4000 : ℤ) ≠ 0 + (5 - 0) := by
  constructor
  · simp only [translate_coord]
    norm_num
    first
      | exact pyRound_eq_int _ _ (by norm_num)
      | constructor <;> exact pyRound_eq_int _ _ (by norm_num)
  · decide

/-- C2, amended: `_translate_coord` never throws for any inputs because the
divisor `max 1 r_w` (resp. `max 1 r_h`) is always positive; when the
recorded rectangle is degenerate (zero width or zero height) the recorded
extent, not the scale factor, is clamped to 1, so the offset is multiplied
by the full current extent `c_w` (resp. `c_h`) rather than passing through
unscaled. -/
theorem C2_amended :
    ∀ rx ry rX rY rW rH cX cY cW cH : ℤ,
    0 < max 1 rW ∧ 0 < max 1 rH ∧
    translate_coord (rx, ry) (rX, rY, 0, rH) (cX, cY, cW, cH) =
      (pyRound ((cX : ℚ) + ((rx - rX : ℤ) : ℚ) * (cW : ℚ)),
       pyRound ((cY : ℚ) + ((ry - rY : ℤ) : ℚ) *
         ((cH : ℚ) / ((max 1 rH : ℤ) : ℚ)))) ∧
    translate_coord (rx, ry) (rX, rY, rW, 0) (cX, cY, cW, cH) =
      (pyRound ((cX : ℚ) + ((rx - rX : ℤ) : ℚ) *
         ((cW : ℚ) / ((max 1 rW : ℤ) : ℚ))),
       pyRound ((cY : ℚ) + ((ry - rY : ℤ) : ℚ) * (cH : ℚ))) := by
  intro rx ry rX rY rW rH cX cY cW cH
  refine ⟨by omega, by omega, ?_, ?_⟩
  · simp [translate_coord]
  · simp [translate_coord]

/-! ## Claim C3: Geometry Translator identity -/

/-- C3, counterexample. The claim quantifies over all rectangles, including
degenerate ones: for the zero-size rectangle R = (0, 0, 0, 0) the clamped
scale is 0 / max(1, 0) = 0, so translate((5, 7), R, R) = (0, 0), not
(5, 7). -/
theorem C3_counterexample :
    translate_coord (5, 7) (0, 0, 0, 0) (0, 0, 0, 0) = (0, 0) ∧
    ((0 : ℤ), (0 : ℤ)) ≠ ((5 : ℤ), (7 : ℤ)) := by
  constructor
  · simp only [translate_coord]
    norm_num
    first
      | exact pyRound_eq_int _ _ (by norm_num)
      | constructor <;> exact pyRound_eq_int _ _ (by norm_num)
  · decide

/-- C3, amended: translating a point from a rectangle to the same rectangle
is the identity for every rectangle of positive width and height (written
w + 1, h + 1 with w h natural). -/
theorem C3_amended :
    ∀ (rx ry rX rY : ℤ) (w h : ℕ),
    translate_coord (rx, ry) (rX, rY, (w : ℤ) + 1, (h : ℤ) + 1)
      (rX, rY, (w : ℤ) + 1, (h : ℤ) + 1) = (rx, ry) := by
  intro rx ry rX rY w h
  have hw : max 1 ((w : ℤ) + 1) = (w : ℤ) + 1 := by omega
  have hh : max 1 ((h : ℤ) + 1) = (h : ℤ) + 1 := by omega
  have hwq : (((w : ℤ) + 1 : ℤ) : ℚ) ≠ 0 := by
    push_cast
    positivity
  have hhq : (((h : ℤ) + 1 : ℤ) : ℚ) ≠ 0 := by
    push_cast
    positivity
  have ex : (rX : ℚ) + ((rx - rX : ℤ) : ℚ) * 1 = ((rx : ℤ) : ℚ) := by
    push_cast
    ring
  have ey : (rY : ℚ) + ((ry - rY : ℤ) : ℚ) * 1 = ((ry : ℤ) : ℚ) := by
    push_cast
    ring
  simp only [translate_coord, hw, hh, div_self hwq, div_self hhq, ex, ey,
    pyRound_intCast]

/-! ## Claim C6: UI State Sampler changed -/

/-- C6, counterexample. The claim reads changed as true iff both hashes are
present (not None) and differ. The hashes some "" and some "x" are both
present and differ, yet the Python expression evaluates the empty string as
falsy and returns False. -/
theorem C6_counterexample :
    detect_ui_changes (some ("")) (some ("x")) = false ∧
    (some ("") : Option String) ≠ none ∧
    (some ("x") : Option String) ≠ none ∧
    (some ("") : Option String) ≠ some ("x") := by
  decide

/-- C6, amended: changed(before, after) is true iff both hashes are truthy
(present and non-empty) and differ; changed(a, a) is false for every
fingerprint; changed is false whenever either hash is absent. -/
theorem C6_amended :
    ∀ before_hash after_hash : Option String,
    (detect_ui_changes before_hash after_hash = true ↔
      (truthyHash before_hash = true ∧ truthyHash after_hash = true ∧
        before_hash ≠ after_hash)) ∧
    detect_ui_changes before_hash before_hash = false ∧
    detect_ui_changes none after_hash = false ∧
    detect_ui_changes before_hash none = false := by
  intro b a
  rcases b with _ | b <;> rcases a with _ | a <;>
    simp [detect_ui_changes, truthyHash] <;> tauto

/-! ## Claim C10: the threshold loop refines a single lowest-threshold call -/

/-- C10: because `cv2.matchTemplate` and `cv2.minMaxLoc` are deterministic
and independent of the confidence argument, the loop over the four
descending thresholds (0.85, 0.78, 0.62, 0.45) that accepts the first
threshold met returns the same accept/reject decision and the same matched
point as the single call at the lowest threshold 0.45. -/
theorem C10_threshold_loop_refinement :
    ∀ (score : Option ((ℤ × ℤ) × ℚ)) (a : Attr),
    (tmLoop score a confs).1 =
      (cv2_template_match score TEMPLATE_CONF_VERY_RELAXED).map Prod.fst := by
  intro score a
  rcases score with _ | ⟨p, v⟩
  · simp [tmLoop, cv2_template_match, confs]
  · by_cases h1 : TEMPLATE_CONF_HIGH ≤ v
    · have h4 : TEMPLATE_CONF_VERY_RELAXED ≤ v := by
        refine le_trans ?_ h1
        norm_num [TEMPLATE_CONF_VERY_RELAXED, TEMPLATE_CONF_HIGH]
      simp [tmLoop, cv2_template_match, confs, h1, h4]
    · by_cases h2 : TEMPLATE_CONF_DEFAULT ≤ v
      · have h4 : TEMPLATE_CONF_VERY_RELAXED ≤ v := by
          refine le_trans ?_ h2
          norm_num [TEMPLATE_CONF_VERY_RELAXED, TEMPLATE_CONF_DEFAULT]
        simp [tmLoop, cv2_template_match, confs, h1, h2, h4]
      · by_cases h3 : TEMPLATE_CONF_RELAXED ≤ v
        · have h4 : TEMPLATE_CONF_VERY_RELAXED ≤ v := by
            refine le_trans ?_ h3
            norm_num [TEMPLATE_CONF_VERY_RELAXED, TEMPLATE_CONF_RELAXED]
          simp [tmLoop, cv2_template_match, confs, h1, h2, h3, h4]
        · by_cases h4 : TEMPLATE_CONF_VERY_RELAXED ≤ v
          · simp [tmLoop, cv2_template_match, confs, h1, h2, h3, h4]
          · simp [tmLoop, cv2_template_match, confs, h1, h2, h3, h4]
theorem tryClicks_trace_mem (failAt : ℤ × ℤ → Bool) :
    ∀ (l : List (ℤ × ℤ)) (p : ℤ × ℤ), p ∈ (tryClicks failAt l).2 → p ∈ l := by
  intro l
  induction l with
  | nil => simp [tryClicks]
  | cons q ps ih =>
    intro p hp
    cases h : failAt q with
    | true =>
      simp only [tryClicks, h, if_true] at hp
      rcases List.mem_cons.mp hp with hp | hp
      · simp [hp]
      · exact List.mem_cons_of_mem _ (ih p hp)
    | false =>
      simp [tryClicks, h] at hp
      simp [hp]

theorem tryClicks_true_iff (failAt : ℤ × ℤ → Bool) :
    ∀ l : List (ℤ × ℤ),
    (tryClicks failAt l).1 = true ↔ ∃ p ∈ l, failAt p = false := by
  intro l
  induction l with
  | nil => simp [tryClicks]
  | cons q ps ih =>
    cases h : failAt q with
    | true => simp [tryClicks, h, ih]
    | false =>
      simp only [tryClicks, h, Bool.false_eq_true, if_false]
      constructor
      · intro _
        exact ⟨q, List.mem_cons_self q ps, h⟩
      · intro _
        trivial

theorem tryClicks_append_of_true (failAt : ℤ × ℤ → Bool) :
    ∀ l1 l2 : List (ℤ × ℤ), (tryClicks failAt l1).1 = true →
    tryClicks failAt (l1 ++ l2) = tryClicks failAt l1 := by
  intro l1
  induction l1 with
  | nil => simp [tryClicks]
  | cons q ps ih =>
    intro l2 h1
    cases h : failAt q with
    | true =>
      simp only [tryClicks, h, if_true] at h1
      simp only [List.cons_append, tryClicks, h, if_true, List.append_eq]
      rw [ih l2 h1]
    | false => simp [List.cons_append, tryClicks, h]

theorem tryClicks_trace_of_false (failAt : ℤ × ℤ → Bool) :
    ∀ l : List (ℤ × ℤ), (tryClicks failAt l).1 = false →
    (tryClicks failAt l).2 = l := by
  intro l
  induction l with
  | nil => simp [tryClicks]
  | cons q ps ih =>
    intro h1
    cases h : failAt q with
    | true =>
      simp only [tryClicks, h, if_true] at h1 ⊢
      rw [ih h1]
    | false =>
      simp [tryClicks, h] at h1

theorem tryClicks_dropLast_fail (failAt : ℤ × ℤ → Bool) :
    ∀ (l : List (ℤ × ℤ)) (p : ℤ × ℤ),
    p ∈ (tryClicks failAt l).2.dropLast → failAt p = true := by
  intro l
  induction l with
  | nil => simp [tryClicks]
  | cons q ps ih =>
    intro p hp
    cases h : failAt q with
    | true =>
      simp only [tryClicks, h, if_true] at hp
      by_cases hr : (tryClicks failAt ps).2 = []
      · rw [hr] at hp
        simp at hp
      · rw [List.dropLast_cons_of_ne_nil hr] at hp
        rcases List.mem_cons.mp hp with hp | hp
        · rw [hp]
          exact h
        · exact ih p hp
    | false =>
      simp [tryClicks, h] at hp

theorem tryClicks_trace_prefixOf (failAt : ℤ × ℤ → Bool) :
    ∀ l : List (ℤ × ℤ), (tryClicks failAt l).2 <+: l := by
  intro l
  induction l with
  | nil => simp [tryClicks]
  | cons q ps ih =>
    cases h : failAt q with
    | true =>
      simp only [tryClicks, h, if_true]
      rcases ih with ⟨t, ht⟩
      exact ⟨t, by simp [ht]⟩
    | false =>
      simp only [tryClicks, h, Bool.false_eq_true, if_false]
      exact ⟨ps, rfl⟩

/-- C4, amended: on platform failure at the exact point, `_intelligent_click`
retries at the 9 points of the plus-minus 8 pixel 3 by 3 grid - the centre
is not excluded, so the exact point is retried once more - then at radii
12, 18 and the configurable maximum with 3 by 3 grids (centre included),
stopping at the first successful attempt. Formally: the attempted points
are always a prefix of the written-out schedule `specClickPoints`; the call
succeeds iff some scheduled point succeeds; on overall failure every point
was attempted; every attempted point except the last failed. -/
theorem C4_amended :
    ∀ (failAt : ℤ × ℤ → Bool) (x y r : ℤ),
    (intelligent_click failAt x y r).2 <+: specClickPoints x y r ∧
    ((intelligent_click failAt x y r).1 = true ↔
      ∃ p ∈ specClickPoints x y r, failAt p = false) ∧
    ((intelligent_click failAt x y r).1 = false →
      (intelligent_click failAt x y r).2 = specClickPoints x y r) ∧
    (∀ p ∈ (intelligent_click failAt x y r).2.dropLast, failAt p = true) := by
  intro failAt x y r
  have hic : intelligent_click failAt x y r =
      tryClicks failAt (specClickPoints x y r) := by
    rw [intelligent_click, clickPoints_eq_spec]
  rw [hic]
  exact ⟨tryClicks_trace_prefixOf failAt _, tryClicks_true_iff failAt _,
    tryClicks_trace_of_false failAt _, tryClicks_dropLast_fail failAt _⟩

/-- C4, counterexample: with every attempt failing, the attempts after the
exact point start with the nine offsets of the plus-minus 8 grid including
the centre (0, 0) again - not the 8 surrounding offsets the claim states -
so the first ten attempted points contain (0, 0) twice. -/
theorem C4_counterexample :
    ((intelligent_click (fun _ => true) 0 0 24).2.take 10 =
      [(0, 0), (-8, -8), (-8, 0), (-8, 8), (0, -8), (0, 0), (0, 8),
       (8, -8), (8, 0), (8, 8)]) ∧
    ((intelligent_click (fun _ => true) 0 0 24).2.take 10).count
      ((0 : ℤ), (0 : ℤ)) = 2 := by
  decide

/-- C5: if the exact point and the whole plus-minus 8 grid fail but some
point of the radius-12 grid succeeds, `_intelligent_click` reports success
and every attempted point lies in the exact point, the plus-minus 8 grid or
the radius-12 grid - no attempt at radius 18 or at any larger radius is
made. The embedding is total, so the call returns a boolean and never
raises past its boundary. -/
theorem C5_radius12_short_circuit :
    ∀ (failAt : ℤ × ℤ → Bool) (x y r : ℤ),
    (∀ s ∈ gridSteps 8, failAt (x + s.1, y + s.2) = true) →
    failAt (x, y) = true →
    (∃ s ∈ gridSteps 12, failAt (x + s.1, y + s.2) = false) →
    (intelligent_click failAt x y r).1 = true ∧
    (∀ p ∈ (intelligent_click failAt x y r).2,
      p ∈ (x, y) ::
        (gridSteps 8 ++ gridSteps 12).map (fun s => (x + s.1, y + s.2))) := by
  intro failAt x y r h8 hc h12
  have hsplit : clickPoints x y r =
      ((x, y) ::
        (gridSteps 8 ++ gridSteps 12).map (fun s => (x + s.1, y + s.2))) ++
      (gridSteps 18 ++ gridSteps r).map (fun s => (x + s.1, y + s.2)) := by
    simp [clickPoints, List.map_append, List.append_assoc]
  obtain ⟨s, hs, hfs⟩ := h12
  have hmem : (x + s.1, y + s.2) ∈
      (x, y) ::
        (gridSteps 8 ++ gridSteps 12).map (fun t => (x + t.1, y + t.2)) := by
    refine List.mem_cons_of_mem _ ?_
    exact List.mem_map.mpr ⟨s, List.mem_append_right _ hs, rfl⟩
  have h1 : (tryClicks failAt
      ((x, y) ::
        (gridSteps 8 ++ gridSteps 12).map (fun t => (x + t.1, y + t.2)))).1 =
      true :=
    (tryClicks_true_iff failAt _).mpr ⟨_, hmem, hfs⟩
  have heq : intelligent_click failAt x y r =
      tryClicks failAt
        ((x, y) ::
          (gridSteps 8 ++ gridSteps 12).map (fun t => (x + t.1, y + t.2))) := by
    rw [intelligent_click, hsplit, tryClicks_append_of_true _ _ _ h1]
  rw [heq]
  exact ⟨h1, fun p hp => tryClicks_trace_mem failAt _ p hp⟩

/-- C5, witness: the concrete failure pattern `failW5` fails everywhere but
at (112, 112), a radius-12 point of the target (100, 100); the click
succeeds. -/
theorem C5_witness : (intelligent_click failW5 100 100 24).1 = true :=
  (C5_radius12_short_circuit failW5 100 100 24 (by decide) (by decide)
    (by decide)).1

theorem clipSnip_some (sw sh x y : ℤ) (nm : String) (w h : ℤ) (s : Snip)
    (hs : clipSnip sw sh x y nm w h = some s) :
    s.name = nm ∧ 0 ≤ s.left ∧ s.left < s.right ∧ s.right ≤ sw ∧
    0 ≤ s.top ∧ s.top < s.bottom ∧ s.bottom ≤ sh ∧
    s.originLeft = s.left ∧ s.originTop = s.top := by
  simp only [clipSnip] at hs
  split at hs
  · exact absurd hs (by simp)
  · rename_i hcond
    injection hs with hs
    subst hs
    refine ⟨rfl, ?_, ?_, ?_, ?_, ?_, ?_, rfl, rfl⟩ <;> (dsimp only []; omega)

theorem mem_save_multi_snips (sw sh x y : ℤ) (s : Snip)
    (hs : s ∈ save_multi_snips sw sh x y) :
    clipSnip sw sh x y ("micro") 80 60 = some s ∨
    clipSnip sw sh x y ("small") 160 120 = some s ∨
    clipSnip sw sh x y ("medium") 320 240 = some s ∨
    clipSnip sw sh x y ("large") 480 360 = some s ∨
    clipSnip sw sh x y ("context") 800 600 = some s := by
  rw [save_multi_snips, List.reduceOption_mem_iff] at hs
  simp only [snipSizes, List.map_cons, List.map_nil, List.mem_cons,
    List.not_mem_nil, or_false] at hs
  rcases hs with hs | hs | hs | hs | hs <;> simp_all

/-- C7: for every frame size and point, `_save_multi_snips` produces at
most five crops, at most one per fixed size (equal names force equal
snips); each kept crop has a non-empty rectangle lying within the frame
bounds and its top-left origin in full-frame coordinates is recorded
alongside it; sizes whose clipped rectangle is empty are omitted, and the
embedding is total, so no input raises. -/
theorem C7_region_extractor :
    ∀ sw sh x y : ℤ,
    (save_multi_snips sw sh x y).length ≤ 5 ∧
    (∀ s ∈ save_multi_snips sw sh x y,
      0 ≤ s.left ∧ s.left < s.right ∧ s.right ≤ sw ∧
      0 ≤ s.top ∧ s.top < s.bottom ∧ s.bottom ≤ sh ∧
      s.originLeft = s.left ∧ s.originTop = s.top) ∧
    (∀ s ∈ save_multi_snips sw sh x y, ∀ t ∈ save_multi_snips sw sh x y,
      s.name = t.name → s = t) := by
  intro sw sh x y
  refine ⟨?_, ?_, ?_⟩
  · have hlen := List.reduceOption_length_le
      (snipSizes.map (fun s => clipSnip sw sh x y s.1 s.2.1 s.2.2))
    simp only [List.length_map, snipSizes] at hlen
    simpa [save_multi_snips] using hlen
  · intro s hs
    rcases mem_save_multi_snips sw sh x y s hs with h | h | h | h | h <;>
      exact (clipSnip_some _ _ _ _ _ _ _ _ h).2
  · intro s hs t ht hname
    rcases mem_save_multi_snips sw sh x y s hs with h1 | h1 | h1 | h1 | h1 <;>
      rcases mem_save_multi_snips sw sh x y t ht with h2 | h2 | h2 | h2 | h2 <;>
      first
        | exact Option.some.inj (h1.symm.trans h2)
        | (have ns := (clipSnip_some _ _ _ _ _ _ _ _ h1).1
           have nt := (clipSnip_some _ _ _ _ _ _ _ _ h2).1
           rw [ns, nt] at hname
           exact absurd hname (by decide))

theorem replayFrom_spec (abortAt : ℕ → Bool) :
    ∀ (events : List REvent) (i0 : ℕ),
    (∀ j, j < (replayFrom abortAt i0 events).2.2 → abortAt (i0 + j) = false) ∧
    ((replayFrom abortAt i0 events).1, (replayFrom abortAt i0 events).2.1) =
      totals (events.take (replayFrom abortAt i0 events).2.2) ∧
    (replayFrom abortAt i0 events).2.2 ≤ events.length := by
  intro events
  induction events with
  | nil =>
    intro i0
    simp [replayFrom, totals]
  | cons e rest ih =>
    intro i0
    cases h : abortAt i0 with
    | true => simp [replayFrom, h, totals]
    | false =>
      have ihh := ih (i0 + 1)
      simp only [replayFrom, h, Bool.false_eq_true, if_false]
      refine ⟨?_, ?_, ?_⟩
      · intro j hj
        cases j with
        | zero => simpa using h
        | succ j' =>
          have := ihh.1 j' (by omega)
          have harith : i0 + (j' + 1) = i0 + 1 + j' := by omega
          rw [harith]
          exact this
      · have h1 := congrArg Prod.fst ihh.2.1
        have h2 := congrArg Prod.snd ihh.2.1
        simp only at h1 h2
        simp only [List.take_succ_cons, totals, h1, h2]
      · have := ihh.2.2
        simp only [List.length_cons]
        omega

/-- C9: once the abort signal is set the replay loop stops before executing
the next event and the reported counters cover exactly the events executed
before the stop. Formally, for a monotone abort flag that is set at index k:
at most k events execute, every executed event index saw the flag unset, and
the success and failure counters are the totals of the executed prefix. -/
theorem C9_abort_stops_replay :
    ∀ (abortAt : ℕ → Bool) (events : List REvent) (k : ℕ),
    (∀ i j, i ≤ j → abortAt i = true → abortAt j = true) →
    abortAt k = true →
    (replay_script abortAt events).2.2 ≤ k ∧
    (∀ i, i < (replay_script abortAt events).2.2 → abortAt i = false) ∧
    ((replay_script abortAt events).1, (replay_script abortAt events).2.1) =
      totals (events.take (replay_script abortAt events).2.2) := by
  intro abortAt events k hmono hk
  have h := replayFrom_spec abortAt events 0
  have hunset : ∀ i, i < (replay_script abortAt events).2.2 →
      abortAt i = false := by
    intro i hi
    have := h.1 i hi
    simpa using this
  refine ⟨?_, hunset, h.2.1⟩
  by_contra hlt
  push_neg at hlt
  have := hunset k (by omega)
  rw [hk] at this
  simp at this

/-- C9, witness: a four-event replay whose abort flag becomes set from index
2 on executes at most two events. -/
theorem C9_witness : (replay_script abortW9 eventsW9).2.2 ≤ 2 :=
  (C9_abort_stops_replay abortW9 eventsW9 2
    (by
      intro i j hij hi
      simp only [abortW9, decide_eq_true_eq] at hi ⊢
      omega)
    (by decide)).1

theorem tmLoop_trace (score : Option ((ℤ × ℤ) × ℚ)) (a : Attr) :
    ∀ cs : List ℚ,
    (tmLoop score a cs).2 <+: cs.map (Attempt.template a) ∧
    ((tmLoop score a cs).1 = none →
      (tmLoop score a cs).2 = cs.map (Attempt.template a)) := by
  intro cs
  induction cs with
  | nil => simp [tmLoop]
  | cons c cs ih =>
    cases hm : cv2_template_match score c with
    | some pv =>
      constructor
      · simp only [tmLoop, hm, List.map_cons]
        exact ⟨cs.map (Attempt.template a), rfl⟩
      · intro hnone
        simp [tmLoop, hm] at hnone
    | none =>
      constructor
      · simp only [tmLoop, hm, List.map_cons]
        exact (List.cons_prefix_cons).mpr ⟨rfl, ih.1⟩
      · intro hnone
        simp only [tmLoop, hm] at hnone ⊢
        rw [ih.2 hnone]
        simp

theorem prefix_append_left {α : Type} (l1 : List α) {l2 l3 : List α}
    (h : l2 <+: l3) : l1 ++ l2 <+: l1 ++ l3 := by
  rcases h with ⟨t, ht⟩
  exact ⟨t, by rw [List.append_assoc, ht]⟩

theorem tryAttr_trace (env : MatchEnv) (a : Attr) :
    (tryAttr env a).2 <+: attrGate env a ∧
    ((tryAttr env a).1 = none → (tryAttr env a).2 = attrGate env a) := by
  cases hg : env.present a && env.resolvable a with
  | false =>
    simp [tryAttr, attrGate, hg]
  | true =>
    have htm := tmLoop_trace (env.tmScore a) a confs
    cases h1 : (tmLoop (env.tmScore a) a confs).1 with
    | some p =>
      constructor
      · simp only [tryAttr, attrGate, hg, if_true, h1]
        exact htm.1.trans (List.prefix_append _ _)
      · intro hnone
        simp [tryAttr, hg, h1] at hnone
    | none =>
      have hfull := htm.2 h1
      have htraceC : (tryAttr env a).2 = attrCanon a := by
        cases ho : env.orbHit a with
        | some pv =>
          simp only [tryAttr, hg, if_true, h1, ho]
          rw [hfull, attrCanon]
        | none =>
          simp only [tryAttr, hg, if_true, h1, ho]
          rw [hfull, attrCanon]
      constructor
      · rw [htraceC]
        simp [attrGate, hg]
      · intro _
        rw [htraceC]
        simp [attrGate, hg]

theorem tryAttrs_trace (env : MatchEnv) :
    ∀ l : List Attr,
    (tryAttrs env l).2 <+: l.flatMap (attrGate env) ∧
    ((tryAttrs env l).1 = none →
      (tryAttrs env l).2 = l.flatMap (attrGate env)) := by
  intro l
  induction l with
  | nil => simp [tryAttrs]
  | cons a rest ih =>
    have ha := tryAttr_trace env a
    cases h1 : (tryAttr env a).1 with
    | some p =>
      constructor
      · simp only [tryAttrs, h1, List.flatMap_cons]
        exact ha.1.trans (List.prefix_append _ _)
      · intro hnone
        simp [tryAttrs, h1] at hnone
    | none =>
      have hfull := ha.2 h1
      constructor
      · simp only [tryAttrs, h1, List.flatMap_cons]
        rw [hfull]
        exact prefix_append_left _ ih.1
      · intro hnone
        simp only [tryAttrs, h1] at hnone ⊢
        rw [hfull, ih.2 hnone, List.flatMap_cons]

theorem flatMap_attrGate (env : MatchEnv) :
    ∀ l : List Attr,
    l.flatMap (attrGate env) =
      (l.filter (fun a => env.present a && env.resolvable a)).flatMap
        attrCanon := by
  intro l
  induction l with
  | nil => simp
  | cons a rest ih =>
    cases h : env.present a && env.resolvable a with
    | true => simp [attrGate, h, List.filter_cons, ih]
    | false => simp [attrGate, h, List.filter_cons, ih]

theorem tftc_trace (env : MatchEnv) :
    (try_find_click_target env).2 <+: canonicalTrace env ∧
    ((try_find_click_target env).1 = none →
      (try_find_click_target env).2 = canonicalTrace env) := by
  cases hs : env.screenshot with
  | false => simp [try_find_click_target, canonicalTrace, hs]
  | true =>
    have hA := tryAttrs_trace env imgAttrs
    have hflat := flatMap_attrGate env imgAttrs
    have hcanon : canonicalTrace env =
        imgAttrs.flatMap (attrGate env) ++
        (match env.ocrText with
         | some s => if s = ("" : String) then [] else [Attempt.textMatch]
         | none => []) := by
      rw [canonicalTrace, if_pos hs, hflat]
    cases h1 : (tryAttrs env imgAttrs).1 with
    | some p =>
      constructor
      · simp only [try_find_click_target, hs, if_true, h1]
        rw [hcanon]
        exact hA.1.trans (List.prefix_append _ _)
      · intro hnone
        simp [try_find_click_target, hs, h1] at hnone
    | none =>
      have hfull := hA.2 h1
      rw [hcanon]
      cases ho : env.ocrText with
      | none =>
        simp only [try_find_click_target, hs, if_true, h1, ho]
        constructor
        · rw [hfull]
          exact List.prefix_append _ _
        · intro _
          rw [hfull]
          simp
      | some s =>
        by_cases hse : s = ("" : String)
        · simp only [try_find_click_target, hs, if_true, h1, ho, hse, if_pos rfl]
          constructor
          · rw [hfull]
            simp
          · intro _
            rw [hfull]
            simp [hse]
        · cases hhit : env.ocrHit s with
          | some pv =>
            simp only [try_find_click_target, hs, if_true, h1, ho, if_neg hse,
              hhit]
            constructor
            · rw [hfull]
            · intro hnone
              simp at hnone
          | none =>
            simp only [try_find_click_target, hs, if_true, h1, ho, if_neg hse,
              hhit]
            constructor
            · rw [hfull]
            · intro _
              rw [hfull]

/-- C1, amended: the cascade does not run all raster matching before any
feature matching. Instead, for each stored attribute in the source order
small, medium, large, micro, context, it tries the four descending template
thresholds and then, if none is accepted, feature matching on that same
attribute, before moving to the next attribute; text matching comes last;
the first success short-circuits. Formally the attempt trace is always a
prefix of that canonical interleaved schedule, and equals all of it when
nothing matches. -/
theorem C1_amended :
    ∀ env : MatchEnv,
    (try_find_click_target env).2 <+: canonicalTrace env ∧
    ((try_find_click_target env).1 = none →
      (try_find_click_target env).2 = canonicalTrace env) := by
  intro env
  exact tftc_trace env

/-- C1, counterexample: on `cexEnvC1` the trace contains a template
(raster) attempt after a feature attempt - the feature attempt on the small
region runs before the raster attempts on the medium region - refuting the
claim that sparse feature matching is attempted only after no raster match
was accepted for any size. -/
theorem C1_counterexample :
    ((try_find_click_target cexEnvC1).2.dropWhile
      (fun att => !isFeatureA att)).any isTemplateA = true := by
  decide

theorem tmLoop_none_of_score_none (a : Attr) :
    ∀ cs : List ℚ, (tmLoop none a cs).1 = none := by
  intro cs
  induction cs with
  | nil => simp [tmLoop]
  | cons c cs ih => simp [tmLoop, cv2_template_match, ih]

theorem tryAttr_none (env : MatchEnv) (a : Attr)
    (ht : env.tmScore a = none) (ho : env.orbHit a = none) :
    (tryAttr env a).1 = none := by
  cases hg : env.present a && env.resolvable a with
  | false => simp [tryAttr, hg]
  | true =>
    have h1 : (tmLoop (env.tmScore a) a confs).1 = none := by
      rw [ht]
      exact tmLoop_none_of_score_none a confs
    simp [tryAttr, hg, h1, ho]

theorem tryAttrs_none (env : MatchEnv)
    (ht : ∀ a, env.tmScore a = none) (ho : ∀ a, env.orbHit a = none) :
    ∀ l : List Attr, (tryAttrs env l).1 = none := by
  intro l
  induction l with
  | nil => simp [tryAttrs]
  | cons a rest ih =>
    have h1 := tryAttr_none env a (ht a) (ho a)
    simp [tryAttrs, h1, ih]

theorem tftc_none (env : MatchEnv)
    (ht : ∀ a, env.tmScore a = none) (ho : ∀ a, env.orbHit a = none)
    (hocr : ∀ s, env.ocrHit s = none) :
    (try_find_click_target env).1 = none := by
  cases hs : env.screenshot with
  | false => simp [try_find_click_target, hs]
  | true =>
    have h1 := tryAttrs_none env ht ho imgAttrs
    cases hoc : env.ocrText with
    | none => simp [try_find_click_target, hs, h1, hoc]
    | some s =>
      by_cases hse : s = ("" : String)
      · simp [try_find_click_target, hs, h1, hoc, hse]
      · simp [try_find_click_target, hs, h1, hoc, hse, hocr s]

theorem attemptAttr_of_mem_attrCanon (a : Attr) (att : Attempt)
    (h : att ∈ attrCanon a) : attemptAttr att = some a := by
  simp only [attrCanon, List.mem_append, List.mem_map,
    List.mem_singleton] at h
  rcases h with ⟨c, _, rfl⟩ | rfl <;> rfl

/-- C8: when a stored region attribute is present but its backing image
file cannot be resolved, and no matcher yields anything, the cascade
returns absent rather than raising, its trace makes no attempt on the
missing attribute, it still attempts every remaining resolvable attribute
(all four template thresholds and the feature pass) and the text strategy
when stored text is usable. -/
theorem C8_missing_region_skipped :
    ∀ (env : MatchEnv) (a0 : Attr),
    env.screenshot = true →
    env.present a0 = true →
    env.resolvable a0 = false →
    (∀ a, env.tmScore a = none) →
    (∀ a, env.orbHit a = none) →
    (∀ s, env.ocrHit s = none) →
    (try_find_click_target env).1 = none ∧
    (∀ att ∈ (try_find_click_target env).2, attemptAttr att ≠ some a0) ∧
    (∀ b, env.present b = true → env.resolvable b = true →
      Attempt.feature b ∈ (try_find_click_target env).2 ∧
      ∀ c ∈ confs, Attempt.template b c ∈ (try_find_click_target env).2) ∧
    (∀ s, env.ocrText = some s → s ≠ ("" : String) →
      Attempt.textMatch ∈ (try_find_click_target env).2) := by
  intro env a0 hs hp0 hr0 ht ho hocr
  have hnone := tftc_none env ht ho hocr
  have htr : (try_find_click_target env).2 = canonicalTrace env :=
    (tftc_trace env).2 hnone
  rw [htr]
  refine ⟨hnone, ?_, ?_, ?_⟩
  · intro att hatt
    rw [canonicalTrace, if_pos hs] at hatt
    rcases List.mem_append.mp hatt with hatt | hatt
    · rcases List.mem_flatMap.mp hatt with ⟨b, hb, hattb⟩
      have hab := attemptAttr_of_mem_attrCanon b att hattb
      rw [hab]
      intro hcontra
      have hb2 := List.mem_filter.mp hb
      have hba : b = a0 := by
        injection hcontra
      rw [hba] at hb2
      have := hb2.2
      rw [hr0] at this
      simp at this
    · have hatt2 : att = Attempt.textMatch := by
        rcases hoc : env.ocrText with _ | s
        · rw [hoc] at hatt
          simp at hatt
        · rw [hoc] at hatt
          by_cases hse : s = ("" : String)
          · simp [hse] at hatt
          · simp [hse] at hatt
            exact hatt
      rw [hatt2]
      simp [attemptAttr]
  · intro b hpb hrb
    have hbmem : b ∈ imgAttrs := by
      cases b <;> simp [imgAttrs]
    have hbf : b ∈ imgAttrs.filter
        (fun a => env.present a && env.resolvable a) :=
      List.mem_filter.mpr ⟨hbmem, by simp [hpb, hrb]⟩
    constructor
    · rw [canonicalTrace, if_pos hs]
      refine List.mem_append_left _ ?_
      exact List.mem_flatMap.mpr ⟨b, hbf, by simp [attrCanon]⟩
    · intro c hc
      rw [canonicalTrace, if_pos hs]
      refine List.mem_append_left _ ?_
      refine List.mem_flatMap.mpr ⟨b, hbf, ?_⟩
      simp only [attrCanon, List.mem_append]
      exact Or.inl (List.mem_map.mpr ⟨c, hc, rfl⟩)
  · intro s hse hsne
    rw [canonicalTrace, if_pos hs, hse]
    refine List.mem_append_right _ ?_
    simp [hsne]

/-- C8, witness: on `wEnvC8` the cascade returns absent, still attempts
feature matching on the medium region and still attempts the text
strategy. -/
theorem C8_witness :
    (try_find_click_target wEnvC8).1 = none ∧
    Attempt.feature Attr.medium ∈ (try_find_click_target wEnvC8).2 ∧
    Attempt.textMatch ∈ (try_find_click_target wEnvC8).2 :=
  ⟨(C8_missing_region_skipped wEnvC8 Attr.small rfl rfl rfl (fun _ => rfl)
      (fun _ => rfl) (fun _ => rfl)).1,
   ((C8_missing_region_skipped wEnvC8 Attr.small rfl rfl rfl (fun _ => rfl)
      (fun _ => rfl) (fun _ => rfl)).2.2.1 Attr.medium rfl rfl).1,
   (C8_missing_region_skipped wEnvC8 Attr.small rfl rfl rfl (fun _ => rfl)
      (fun _ => rfl) (fun _ => rfl)).2.2.2 ("OK") rfl (by decide)⟩
